import Mathlib

/-!
# Pantry-entry lifecycle: a shallow embedding

A shallow embedding of the pantry-inventory core of the repository:

* the domain vocabulary (`src/lib/domain/pantry.ts`),
* the Mongoose schema validation (`src/models/PantryEntry.ts`),
* the API route handlers `GET /api/pantry`, `POST /api/pantry`
  and `DELETE /api/pantry/:id`,
* the client-side partition/sort of `src/app/pantry/PantryClient.tsx`.

Modelling conventions:

* JavaScript numbers are modelled as exact decimal fractions
  `num / 10 ^ exp` (`JsDec`); the programs only compare them to zero and
  the inputs of interest are small decimal literals, where this model
  agrees with binary floating point.  `NaN` and the infinities get their
  own constructors in `JsNum`.
* Calendar dates are modelled by an injective, strictly monotone integer
  encoding of valid `YYYY-MM-DD` strings (`jsDateParse`); only presence,
  absence and relative order of dates matter to the programs.
* The MongoDB collection is a list of records; `findOneAndUpdate`
  updates the first matching record, and document ids are unique in a
  collection (stated as a `Nodup` hypothesis where it matters).
* JavaScript's stable `Array.prototype.sort` with an antisymmetric
  numeric comparator `cmp` is modelled as the stable insertion sort for
  the relation `cmp a b ≤ 0`.
* Timestamps other than `createdAt` play no role in any statement and
  are omitted from the record types.
-/

/-! ## Domain vocabulary (src/lib/domain/pantry.ts) -/

/-- `PANTRY_UNITS` of src/lib/domain/pantry.ts. -/
def PANTRY_UNITS : List String := ["count", "g", "oz", "ml"]

/-- `PANTRY_STATUSES` of src/lib/domain/pantry.ts. -/
def PANTRY_STATUSES : List String := ["ACTIVE", "CONSUMED", "DISCARDED"]

/-- `DATE_LABEL_TYPES` of src/lib/domain/pantry.ts. -/
def DATE_LABEL_TYPES : List String :=
  ["best_if_used_by", "best_before", "use_by", "sell_by", "expiration_date", "not_sure"]

/-- `PANTRY_SORT_OPTIONS` of src/lib/domain/pantry.ts. -/
def PANTRY_SORT_OPTIONS : List String :=
  ["packageDateNewest", "packageDateOldest", "addedDateNewest", "addedDateOldest",
   "nameAZ", "nameZA"]

/-- `isPantryUnit` membership predicate (for string inputs). -/
def isPantryUnit (v : String) : Bool := PANTRY_UNITS.contains v

/-- `isPantryStatus` membership predicate (for string inputs). -/
def isPantryStatus (v : String) : Bool := PANTRY_STATUSES.contains v

/-- `isDateLabelType` membership predicate (for string inputs). -/
def isDateLabelType (v : String) : Bool := DATE_LABEL_TYPES.contains v

/-- `isPantryUnit` on a possibly-absent value: `typeof v === "string"` fails
for `undefined`/`null`, so absent values are not units. -/
def isPantryUnitOpt : Option String → Bool
  | some v => isPantryUnit v
  | none => false

/-! ## JavaScript number model -/

/-- A finite JavaScript number, as the exact decimal `num / 10 ^ exp`. -/
structure JsDec where
  num : Int
  exp : Nat
deriving DecidableEq

/-- The rational value of a `JsDec`. -/
def JsDec.toRat (d : JsDec) : ℚ := (d.num : ℚ) / (10 : ℚ) ^ d.exp

/-- Result of coercing a JavaScript value with `Number(...)`. -/
inductive JsNum where
  | nan
  | posInf
  | negInf
  | fin (val : JsDec)
deriving DecidableEq

/-- A JavaScript primitive that may appear in a JSON body field. -/
inductive JsPrim where
  | num (val : JsDec)
  | str (s : String)
deriving DecidableEq

/-- `String.prototype.trim()`: strip whitespace from both ends. -/
def jsTrim (s : String) : String :=
  String.mk (((s.data.dropWhile Char.isWhitespace).reverse.dropWhile Char.isWhitespace).reverse)

/-- Numeric value of a digit run (most significant first). -/
def digitsVal (cs : List Char) : Nat := cs.foldl (fun n c => n * 10 + (c.toNat - 48)) 0

/-- Parse an unsigned decimal literal `digits[.digits]` into an exact decimal.
Anything else is not a number. -/
def parseUnsignedDecimal (cs : List Char) : Option JsDec :=
  match cs.dropWhile Char.isDigit with
  | [] =>
    if (cs.takeWhile Char.isDigit).isEmpty then none
    else some ⟨(digitsVal cs : Nat), 0⟩
  | '.' :: frac =>
    if frac.all Char.isDigit && !((cs.takeWhile Char.isDigit).isEmpty && frac.isEmpty) then
      some ⟨(digitsVal (cs.takeWhile Char.isDigit ++ frac) : Nat), frac.length⟩
    else none
  | _ => none

/-- `Number(string)`: the empty (trimmed) string is `0`, `Infinity` keeps its
sign, a decimal literal its value, and everything else is `NaN`.  (The
exotic JavaScript formats — hex, exponents — do not occur in this app.) -/
def jsNumberOfString (s : String) : JsNum :=
  if (jsTrim s).isEmpty then .fin ⟨0, 0⟩
  else
    match (jsTrim s).data with
    | '-' :: r =>
      if r = "Infinity".data then .negInf
      else
        match parseUnsignedDecimal r with
        | some d => .fin ⟨-d.num, d.exp⟩
        | none => .nan
    | '+' :: r =>
      if r = "Infinity".data then .posInf
      else
        match parseUnsignedDecimal r with
        | some d => .fin d
        | none => .nan
    | r =>
      if r = "Infinity".data then .posInf
      else
        match parseUnsignedDecimal r with
        | some d => .fin d
        | none => .nan

/-- `Number(body?.quantity)`: `Number(undefined)` is `NaN`, a number is
itself, a string is parsed. -/
def jsNumber : Option JsPrim → JsNum
  | none => .nan
  | some (.num d) => .fin d
  | some (.str s) => jsNumberOfString s

/-! ## Date model -/

/-- `new Date(s).getTime()` validity and ordering for the `YYYY-MM-DD`
strings produced by the app's date inputs: a valid date maps to a strictly
monotone integer encoding, anything else (such as `"not-a-date"`) to
`none`. -/
def jsDateParse (s : String) : Option Int :=
  match s.data with
  | [y1, y2, y3, y4, '-', m1, m2, '-', d1, d2] =>
    if [y1, y2, y3, y4, m1, m2, d1, d2].all Char.isDigit then
      if 1 ≤ digitsVal [m1, m2] && digitsVal [m1, m2] ≤ 12
          && 1 ≤ digitsVal [d1, d2] && digitsVal [d1, d2] ≤ 31 then
        some ((digitsVal [y1, y2, y3, y4] : Int) * 10000
          + (digitsVal [m1, m2] : Int) * 100 + (digitsVal [d1, d2] : Int))
      else none
    else none
  | _ => none

/-- `toDateOrNull` of the pantry route: falsy input (absent, `null`, the
empty string) is no date; a string that does not parse to a valid date is
also no date; otherwise the parsed date. -/
def toDateOrNull : Option String → Option Int
  | none => none
  | some s => if s.isEmpty then none else jsDateParse s

/-! ## POST /api/pantry (Entry Service: submitNewEntry) -/

/-- The JSON body of a creation request, after JSON parsing: each expected
field may be absent.  A request whose body failed to parse is `none` at
the `Option RawBody` level (all accesses go through `body?.`). -/
structure RawBody where
  name : Option String
  quantity : Option JsPrim
  unit : Option String
  purchaseDate : Option String
  dateLabelType : Option String
  dateOnPackage : Option String
deriving DecidableEq

/-- The document the route hands to `PantryEntry.create` (and, on success,
returns with status 201).  Server-assigned `_id`/timestamps are omitted. -/
structure CreatedEntry where
  userId : String
  name : String
  quantity : JsDec
  unit : String
  purchaseDate : Option Int
  dateLabelType : Option String
  dateOnPackage : Option Int
  status : String
deriving DecidableEq

/-- Outcome of `POST /api/pantry`, by response: 401, the three 400
validation failures (each carrying which field failed), or 201 with the
created item. -/
inductive PostResponse where
  | unauthorized
  | errNameRequired
  | errQuantity
  | errInvalidUnit
  | errInvalidDateLabelType
  | created (item : CreatedEntry)
deriving DecidableEq

/-- The `rawDateLabelType` 400 check: supplied (not `undefined`, `null` or
`""`) but not a member of the enumeration. -/
def dltRejected : Option String → Bool
  | none => false
  | some s => if s.isEmpty then false else ! isDateLabelType s

/-- `isDateLabelType(rawDateLabelType) ? rawDateLabelType : undefined`. -/
def dltApplied : Option String → Option String
  | none => none
  | some s => if isDateLabelType s then some s else none

/-- `POST /api/pantry`: authentication, field validation in source order
(name, quantity, unit, dateLabelType), lenient date normalization, then
creation with status `ACTIVE`.  The `quantity.num ≤ 0` test is the
source's `quantity <= 0` on the decimal value (`JsDec.toRat_pos`). -/
def postHandler (auth : Option String) (body : Option RawBody) : PostResponse :=
  match auth with
  | none => .unauthorized
  | some uid =>
    match (body.bind RawBody.name).map jsTrim with
    | none => .errNameRequired
    | some n =>
      if n.isEmpty then .errNameRequired
      else
        match jsNumber (body.bind RawBody.quantity) with
        | .fin d =>
          if d.num ≤ 0 then .errQuantity
          else
            match body.bind RawBody.unit with
            | some u =>
              if isPantryUnit u then
                if dltRejected (body.bind RawBody.dateLabelType) then
                  .errInvalidDateLabelType
                else
                  .created
                    { userId := uid
                      name := n
                      quantity := d
                      unit := u
                      purchaseDate := toDateOrNull (body.bind RawBody.purchaseDate)
                      dateLabelType := dltApplied (body.bind RawBody.dateLabelType)
                      dateOnPackage := toDateOrNull (body.bind RawBody.dateOnPackage)
                      status := "ACTIVE" }
              else .errInvalidUnit
            | none => .errInvalidUnit
        | _ => .errQuantity

/-! ## Entry Store (src/models/PantryEntry.ts) -/

/-- A persisted pantry document.  `updatedAt` plays no role in any claim
and is omitted; `createdAt` is kept for the query-level sort. -/
structure StoredEntry where
  id : String
  userId : String
  name : String
  quantity : JsDec
  unit : String
  purchaseDate : Option Int
  dateLabelType : Option String
  dateOnPackage : Option Int
  status : String
  createdAt : Int
deriving DecidableEq

/-- `PantryEntrySchema` validation on a document handed to `create`:
`name` required (non-empty once trimmed), `quantity` required with
`min: 0`, `unit`/`status` restricted to their enumerations, and
`dateLabelType`, when present, restricted to its enumeration.  The
`0 ≤ quantity.num` test is `0 ≤` the decimal value (`JsDec.toRat_nonneg`). -/
def schemaValidate (f : CreatedEntry) : Bool :=
  ! (jsTrim f.name).isEmpty
    && decide (0 ≤ f.quantity.num)
    && isPantryUnit f.unit
    && isPantryStatus f.status
    && (match f.dateLabelType with
        | some s => isDateLabelType s
        | none => true)

/-! ## DELETE /api/pantry/:id -/

/-- The conditional predicate of the route's `findOneAndUpdate` filter:
`{ _id: id, userId: auth.userId, status: "ACTIVE" }`. -/
def updMatch (uid entryId : String) (e : StoredEntry) : Prop :=
  e.id = entryId ∧ e.userId = uid ∧ e.status = "ACTIVE"

instance (uid entryId : String) (e : StoredEntry) : Decidable (updMatch uid entryId e) := by
  unfold updMatch
  infer_instance

/-- `$set: { status: "DISCARDED" }`. -/
def discardEntry (e : StoredEntry) : StoredEntry := { e with status := "DISCARDED" }

/-- `PantryEntry.findOneAndUpdate(filter, { $set: { status: "DISCARDED" } })`:
update the first matching document, return it (post-update) together with
the new collection; `none` when nothing matched. -/
def findOneAndUpdateDiscard (uid entryId : String) :
    List StoredEntry → Option StoredEntry × List StoredEntry
  | [] => (none, [])
  | e :: es =>
    if updMatch uid entryId e then (some (discardEntry e), discardEntry e :: es)
    else
      ((findOneAndUpdateDiscard uid entryId es).1,
        e :: (findOneAndUpdateDiscard uid entryId es).2)

/-- Hexadecimal digit (for ObjectId syntax). -/
def isHexChar (c : Char) : Bool :=
  c.isDigit || ('a' ≤ c && c ≤ 'f') || ('A' ≤ c && c ≤ 'F')

/-- `mongoose.isValidObjectId` on a string: a 24-character hex string, or
any 12-character string (castable as 12 raw bytes). -/
def isValidObjectId (s : String) : Bool :=
  (s.length = 24 && s.data.all isHexChar) || s.length = 12

/-- Outcome of `DELETE /api/pantry/:id`, by response: 401, 400
(`Invalid id`), 404 (`Not found`) or 200 (`ok: true`). -/
inductive DeleteResponse where
  | unauthorized
  | invalidId
  | notFound
  | ok
deriving DecidableEq

/-- `DELETE /api/pantry/:id`: authentication, id-syntax validation, then
the scoped conditional soft-delete; 404 exactly when no document was
updated.  Returns the response together with the resulting collection. -/
def deleteHandler (auth : Option String) (entryId : String) (store : List StoredEntry) :
    DeleteResponse × List StoredEntry :=
  match auth with
  | none => (.unauthorized, store)
  | some uid =>
    if ! isValidObjectId entryId then (.invalidId, store)
    else
      match findOneAndUpdateDiscard uid entryId store with
      | (none, s) => (.notFound, s)
      | (some _, s) => (.ok, s)

/-! ## GET /api/pantry -/

/-- The query-level sort key of `GET /api/pantry`:
`.sort({ dateOnPackage: 1, createdAt: -1 })`, with absent `dateOnPackage`
sorting first as in MongoDB. -/
def mongoLe (a b : StoredEntry) : Bool :=
  match a.dateOnPackage, b.dateOnPackage with
  | none, none => decide (b.createdAt ≤ a.createdAt)
  | none, some _ => true
  | some _, none => false
  | some x, some y =>
    if x = y then decide (b.createdAt ≤ a.createdAt) else decide (x ≤ y)

/-- `PantryEntry.find({ userId, status: "ACTIVE" }).sort(...)`: the
caller's ACTIVE documents, in the store's query order. -/
def listActive (uid : String) (store : List StoredEntry) : List StoredEntry :=
  List.insertionSort (fun a b => mongoLe a b = true)
    (store.filter fun e => decide (e.userId = uid) && decide (e.status = "ACTIVE"))

/-- Outcome of `GET /api/pantry`: 401 or 200 with the items. -/
inductive GetResponse where
  | unauthorized
  | ok (items : List StoredEntry)
deriving DecidableEq

/-- `GET /api/pantry`. -/
def getHandler (auth : Option String) (store : List StoredEntry) : GetResponse :=
  match auth with
  | none => .unauthorized
  | some uid => .ok (listActive uid store)

/-! ## Presentation ordering (src/app/pantry/PantryClient.tsx) -/

/-- A pantry item as the client receives it from the API.  The optional
ISO date strings are represented by their parsed time values (`none` for
absent). -/
structure PantryItem where
  id : String
  name : String
  quantity : JsDec
  unit : String
  dateLabelType : Option String
  dateOnPackage : Option Int
  createdAt : Option Int
deriving DecidableEq

/-- `new Date(x ?? 0).getTime()` (also totalizes the source's non-null
assertion `x!`, which the dated group only applies to present dates). -/
def jsTime : Option Int → Int
  | some t => t
  | none => 0

/-- Comparator `(a, b) => new Date(b.dateOnPackage!).getTime() - new Date(a.dateOnPackage!).getTime()`. -/
def cmpPkgDesc (a b : PantryItem) : Int := jsTime b.dateOnPackage - jsTime a.dateOnPackage

/-- Comparator `(a, b) => new Date(a.dateOnPackage!).getTime() - new Date(b.dateOnPackage!).getTime()`. -/
def cmpPkgAsc (a b : PantryItem) : Int := jsTime a.dateOnPackage - jsTime b.dateOnPackage

/-- Comparator `(a, b) => new Date(b.createdAt ?? 0).getTime() - new Date(a.createdAt ?? 0).getTime()`. -/
def cmpCreatedDesc (a b : PantryItem) : Int := jsTime b.createdAt - jsTime a.createdAt

/-- Comparator `(a, b) => new Date(a.createdAt ?? 0).getTime() - new Date(b.createdAt ?? 0).getTime()`. -/
def cmpCreatedAsc (a b : PantryItem) : Int := jsTime a.createdAt - jsTime b.createdAt

/-- Three-way comparison of char lists (the sign convention of
`localeCompare`). -/
def lexCmp : List Char → List Char → Int
  | [], [] => 0
  | [], _ :: _ => -1
  | _ :: _, [] => 1
  | a :: as, b :: bs => if a < b then -1 else if b < a then 1 else lexCmp as bs

/-- Case-folded characters of a name. -/
def lowerName (s : String) : List Char := s.data.map Char.toLower

/-- `a.localeCompare(b, undefined, { sensitivity: "base" })`:
case-insensitive lexicographic three-way comparison. -/
def localeCompareBase (a b : String) : Int := lexCmp (lowerName a) (lowerName b)

/-- Comparator `(a, b) => a.name.localeCompare(b.name, undefined, { sensitivity: "base" })`. -/
def cmpNameAZ (a b : PantryItem) : Int := localeCompareBase a.name b.name

/-- Comparator `(a, b) => b.name.localeCompare(a.name, undefined, { sensitivity: "base" })`. -/
def cmpNameZA (a b : PantryItem) : Int := localeCompareBase b.name a.name

/-- `sortBasedOnOption` of PantryClient.tsx: comparator selection by sort
option and by whether the group carries package dates; unrecognized
options fall through to the `createdAt`-descending default. -/
def sortBasedOnOption (sortOption : String) (hasDate : Bool) : PantryItem → PantryItem → Int :=
  if sortOption = "packageDateNewest" then
    if hasDate then cmpPkgDesc else cmpCreatedDesc
  else if sortOption = "packageDateOldest" then
    if hasDate then cmpPkgAsc else cmpCreatedAsc
  else if sortOption = "addedDateNewest" then cmpCreatedDesc
  else if sortOption = "addedDateOldest" then cmpCreatedAsc
  else if sortOption = "nameAZ" then cmpNameAZ
  else if sortOption = "nameZA" then cmpNameZA
  else cmpCreatedDesc

/-- The sort relation induced by a numeric comparator: `a` may precede `b`
when `cmp a b ≤ 0`. -/
def jsSortRel (cmp : PantryItem → PantryItem → Int) (a b : PantryItem) : Prop :=
  cmp a b ≤ 0

instance (cmp : PantryItem → PantryItem → Int) : DecidableRel (jsSortRel cmp) :=
  fun a b => inferInstanceAs (Decidable (cmp a b ≤ 0))

/-- `Array.prototype.sort(cmp)` (stable) as stable insertion sort on
`cmp a b ≤ 0`. -/
def jsSort (cmp : PantryItem → PantryItem → Int) (l : List PantryItem) : List PantryItem :=
  List.insertionSort (jsSortRel cmp) l

/-- `Boolean(i.dateOnPackage)`: the partition predicate.  (The API
serializes dates, so a present date is never the falsy empty string.) -/
def hasPackageDate (i : PantryItem) : Bool := i.dateOnPackage.isSome

/-- The `useMemo` body of `PantryClient`: partition into the dated group
(`withDate`) and the undated group (`noDate`), each sorted by the
selected option's comparator for that group. -/
def pantryGroups (items : List PantryItem) (sortOption : String) :
    List PantryItem × List PantryItem :=
  (jsSort (sortBasedOnOption sortOption true) (items.filter hasPackageDate),
   jsSort (sortBasedOnOption sortOption false) (items.filter fun i => ! hasPackageDate i))


/-! ## Helper lemmas -/

theorem JsDec.toRat_pos (d : JsDec) : 0 < d.toRat ↔ 0 < d.num := by
  unfold JsDec.toRat
  rw [div_pos_iff_of_pos_right (by positivity)]
  exact_mod_cast Iff.rfl

theorem JsDec.toRat_nonneg (d : JsDec) : 0 ≤ d.toRat ↔ 0 ≤ d.num := by
  unfold JsDec.toRat
  rw [le_div_iff₀ (by positivity)]
  simp

theorem contains_iff_mem (l : List String) (v : String) : l.contains v = true ↔ v ∈ l := by
  simp [List.contains]

theorem fd_fst_none_iff (uid entryId : String) (s : List StoredEntry) :
    (findOneAndUpdateDiscard uid entryId s).1 = none ↔ ∀ e ∈ s, ¬ updMatch uid entryId e := by
  induction s with
  | nil => simp [findOneAndUpdateDiscard]
  | cons e es ih =>
    by_cases h : updMatch uid entryId e
    · simp [findOneAndUpdateDiscard, h]
    · simp [findOneAndUpdateDiscard, h, ih]

theorem fd_fst_isSome_iff (uid entryId : String) (s : List StoredEntry) :
    (findOneAndUpdateDiscard uid entryId s).1.isSome = true
      ↔ ∃ e ∈ s, updMatch uid entryId e := by
  induction s with
  | nil => simp [findOneAndUpdateDiscard]
  | cons e es ih =>
    by_cases h : updMatch uid entryId e
    · simp only [findOneAndUpdateDiscard, if_pos h, Option.isSome_some, true_iff]
      exact ⟨e, List.mem_cons_self e es, h⟩
    · simp only [findOneAndUpdateDiscard, if_neg h, ih, List.mem_cons]
      constructor
      · rintro ⟨x, hx, hm⟩
        exact ⟨x, Or.inr hx, hm⟩
      · rintro ⟨x, rfl | hx, hm⟩
        · exact absurd hm h
        · exact ⟨x, hx, hm⟩

theorem fd_fst_none_snd (uid entryId : String) (s : List StoredEntry)
    (h : (findOneAndUpdateDiscard uid entryId s).1 = none) :
    (findOneAndUpdateDiscard uid entryId s).2 = s := by
  induction s with
  | nil => simp [findOneAndUpdateDiscard]
  | cons e es ih =>
    by_cases hm : updMatch uid entryId e
    · simp [findOneAndUpdateDiscard, hm] at h
    · simp only [findOneAndUpdateDiscard, if_neg hm] at h ⊢
      rw [ih h]

theorem fd_snd_map (uid entryId : String) (s : List StoredEntry)
    (h : (s.map StoredEntry.id).Nodup) :
    (findOneAndUpdateDiscard uid entryId s).2
      = s.map (fun e => if updMatch uid entryId e then discardEntry e else e) := by
  induction s with
  | nil => simp [findOneAndUpdateDiscard]
  | cons e es ih =>
    rw [List.map_cons, List.nodup_cons] at h
    by_cases hm : updMatch uid entryId e
    · simp only [findOneAndUpdateDiscard, if_pos hm, List.map_cons, if_pos hm]
      have hrest : ∀ x ∈ es, ¬ updMatch uid entryId x := by
        intro x hx hmx
        exact h.1 (by rw [hm.1, ← hmx.1]; exact List.mem_map_of_mem StoredEntry.id hx)
      rw [show es.map (fun e => if updMatch uid entryId e then discardEntry e else e)
            = es.map id from List.map_congr_left fun x hx => by rw [if_neg (hrest x hx)]; rfl,
          List.map_id]
    · simp only [findOneAndUpdateDiscard, if_neg hm, List.map_cons, if_neg hm]
      rw [ih h.2]

theorem deleteHandler_fst (uid entryId : String) (store : List StoredEntry)
    (hvalid : isValidObjectId entryId = true) :
    (deleteHandler (some uid) entryId store).1 =
      if (findOneAndUpdateDiscard uid entryId store).1.isSome then
        DeleteResponse.ok
      else DeleteResponse.notFound := by
  simp only [deleteHandler, hvalid, Bool.not_true, Bool.false_eq_true, if_false]
  rcases findOneAndUpdateDiscard uid entryId store with ⟨_ | w, snd⟩ <;> simp

theorem deleteHandler_snd (uid entryId : String) (store : List StoredEntry)
    (hvalid : isValidObjectId entryId = true) :
    (deleteHandler (some uid) entryId store).2 = (findOneAndUpdateDiscard uid entryId store).2 := by
  simp only [deleteHandler, hvalid, Bool.not_true, Bool.false_eq_true, if_false]
  rcases findOneAndUpdateDiscard uid entryId store with ⟨_ | w, snd⟩ <;> simp

theorem discarded_not_match (uid entryId : String) (x : StoredEntry) :
    ¬ updMatch uid entryId (discardEntry x) := by
  intro h
  have := h.2.2
  simp [discardEntry] at this

/-! ## Claims about DELETE /api/pantry/:id -/

/-- Claim C1: the soft-delete of `DELETE /api/pantry/:id` transitions an
entry's status to DISCARDED exactly when the entry belongs to the caller
and is currently ACTIVE; when nothing matches it reports NotFound and
changes no entry; run twice in sequence on the same id it yields one
success then one NotFound, and the entry is DISCARDED exactly once. -/
theorem removeEntry_softDelete_c1 (uid entryId : String) (store : List StoredEntry)
    (hvalid : isValidObjectId entryId = true)
    (hnodup : (store.map StoredEntry.id).Nodup) :
    ((deleteHandler (some uid) entryId store).1 = DeleteResponse.ok
        ↔ ∃ e ∈ store, updMatch uid entryId e)
    ∧ (deleteHandler (some uid) entryId store).2
        = store.map (fun e => if updMatch uid entryId e then discardEntry e else e)
    ∧ ((∀ e ∈ store, ¬ updMatch uid entryId e) →
        deleteHandler (some uid) entryId store = (DeleteResponse.notFound, store))
    ∧ ((deleteHandler (some uid) entryId store).1 = DeleteResponse.ok →
        (deleteHandler (some uid) entryId (deleteHandler (some uid) entryId store).2).1
            = DeleteResponse.notFound
        ∧ (deleteHandler (some uid) entryId (deleteHandler (some uid) entryId store).2).2
            = (deleteHandler (some uid) entryId store).2
        ∧ ∀ e ∈ (deleteHandler (some uid) entryId store).2,
            e.id = entryId → e.status = "DISCARDED") := by
  have hfst := deleteHandler_fst uid entryId store hvalid
  have hsnd := deleteHandler_snd uid entryId store hvalid
  have hmap := fd_snd_map uid entryId store hnodup
  have hA : (deleteHandler (some uid) entryId store).1 = DeleteResponse.ok
      ↔ ∃ e ∈ store, updMatch uid entryId e := by
    rw [hfst, ← fd_fst_isSome_iff uid entryId store]
    by_cases h : (findOneAndUpdateDiscard uid entryId store).1.isSome = true
    · simp [h]
    · simp [h]
  have hB : (deleteHandler (some uid) entryId store).2
      = store.map (fun e => if updMatch uid entryId e then discardEntry e else e) := by
    rw [hsnd, hmap]
  refine ⟨hA, hB, ?_, ?_⟩
  · intro hall
    have h1 : (findOneAndUpdateDiscard uid entryId store).1 = none :=
      (fd_fst_none_iff uid entryId store).mpr hall
    have : (findOneAndUpdateDiscard uid entryId store).1.isSome = false := by
      rw [h1]; rfl
    refine Prod.ext ?_ ?_
    · rw [hfst, this]
      rfl
    · rw [hsnd, fd_fst_none_snd uid entryId store h1]
  · intro hok
    have hex : ∃ e ∈ store, updMatch uid entryId e := hA.mp hok
    have hno2 : ∀ e ∈ (deleteHandler (some uid) entryId store).2, ¬ updMatch uid entryId e := by
      intro e he hm
      rw [hB] at he
      rcases List.mem_map.mp he with ⟨x, hx, rfl⟩
      by_cases hmx : updMatch uid entryId x
      · rw [if_pos hmx] at hm
        exact discarded_not_match uid entryId x hm
      · rw [if_neg hmx] at hm
        exact hmx hm
    have hfd2 : (findOneAndUpdateDiscard uid entryId
        (deleteHandler (some uid) entryId store).2).1 = none :=
      (fd_fst_none_iff uid entryId _).mpr hno2
    refine ⟨?_, ?_, ?_⟩
    · rw [deleteHandler_fst uid entryId _ hvalid, hfd2]
      rfl
    · rw [deleteHandler_snd uid entryId _ hvalid, fd_fst_none_snd uid entryId _ hfd2]
    · intro e he hid
      rw [hB] at he
      rcases List.mem_map.mp he with ⟨x, hx, rfl⟩
      by_cases hmx : updMatch uid entryId x
      · rw [if_pos hmx]
        rfl
      · rw [if_neg hmx] at hid ⊢
        rcases hex with ⟨e0, he0, hm0⟩
        have hxe : x = e0 := List.inj_on_of_nodup_map hnodup hx he0 (by rw [hid, hm0.1])
        exact absurd (hxe ▸ hm0) hmx

theorem deleteHandler_no_match (uid entryId : String) (s : List StoredEntry)
    (hvalid : isValidObjectId entryId = true)
    (hall : ∀ e ∈ s, ¬ updMatch uid entryId e) :
    deleteHandler (some uid) entryId s = (DeleteResponse.notFound, s) := by
  have h1 : (findOneAndUpdateDiscard uid entryId s).1 = none :=
    (fd_fst_none_iff uid entryId s).mpr hall
  refine Prod.ext ?_ ?_
  · rw [deleteHandler_fst uid entryId s hvalid, h1]
    rfl
  · rw [deleteHandler_snd uid entryId s hvalid, fd_fst_none_snd uid entryId s h1]

/-- A syntactically valid ObjectId (24 hex characters). -/
def oidA : String := "aaaaaaaaaaaaaaaaaaaaaaaa"

/-- An ACTIVE entry with id `oidA` owned by `"u"`. -/
def entryActive : StoredEntry :=
  { id := oidA, userId := "u", name := "Milk", quantity := ⟨1, 0⟩, unit := "g",
    purchaseDate := none, dateLabelType := none, dateOnPackage := none,
    status := "ACTIVE", createdAt := 0 }

/-- An ACTIVE entry with id `oidA` owned by another user `"v"`. -/
def entryOther : StoredEntry :=
  { id := oidA, userId := "v", name := "Milk", quantity := ⟨1, 0⟩, unit := "g",
    purchaseDate := none, dateLabelType := none, dateOnPackage := none,
    status := "ACTIVE", createdAt := 0 }

theorem removeEntry_softDelete_c1_witness :
    (deleteHandler (some "u") oidA [entryActive]).1 = DeleteResponse.ok :=
  (removeEntry_softDelete_c1 "u" oidA [entryActive] (by decide) (by decide)).1.mpr
    ⟨entryActive, by decide, by decide⟩

/-- Claim C9: for an authenticated caller, deleting an id that belongs to a
different owner is answered exactly like deleting an id that exists
nowhere: NotFound in both cases, with no store change, so the result does
not reveal whether the resource exists under another owner. -/
theorem delete_no_existence_leak_c9 (uid entryId : String) (s₁ s₂ : List StoredEntry)
    (hvalid : isValidObjectId entryId = true)
    (h₁ : ∀ e ∈ s₁, e.id = entryId → e.userId ≠ uid)
    (h₂ : ∀ e ∈ s₂, e.id ≠ entryId) :
    deleteHandler (some uid) entryId s₁ = (DeleteResponse.notFound, s₁)
    ∧ deleteHandler (some uid) entryId s₂ = (DeleteResponse.notFound, s₂)
    ∧ (deleteHandler (some uid) entryId s₁).1 = (deleteHandler (some uid) entryId s₂).1 := by
  have e₁ := deleteHandler_no_match uid entryId s₁ hvalid
    (fun e he hm => h₁ e he hm.1 hm.2.1)
  have e₂ := deleteHandler_no_match uid entryId s₂ hvalid
    (fun e he hm => h₂ e he hm.1)
  exact ⟨e₁, e₂, by rw [e₁, e₂]⟩

theorem delete_no_existence_leak_c9_witness :
    deleteHandler (some "u") oidA [entryOther] = (DeleteResponse.notFound, [entryOther]) :=
  (delete_no_existence_leak_c9 "u" oidA [entryOther] [] (by decide) (by decide)
    (by decide)).1

/-- Claim C10: an authenticated delete request whose id parameter is not a
syntactically valid ObjectId fails with the distinct `Invalid id` (400)
response before any store lookup or update: the response and the untouched
store do not depend on the store's contents, and the outcome differs from
NotFound. -/
theorem delete_invalid_id_c10 (uid entryId : String) (store : List StoredEntry)
    (h : isValidObjectId entryId = false) :
    deleteHandler (some uid) entryId store = (DeleteResponse.invalidId, store)
    ∧ DeleteResponse.invalidId ≠ DeleteResponse.notFound := by
  refine ⟨?_, by simp⟩
  simp [deleteHandler, h]

theorem delete_invalid_id_c10_witness :
    deleteHandler (some "u") "abc" [entryActive] = (DeleteResponse.invalidId, [entryActive]) :=
  (delete_invalid_id_c10 "u" "abc" [entryActive] (by decide)).1

/-! ## Claims about GET /api/pantry -/

theorem mem_listActive (uid : String) (store : List StoredEntry) (e : StoredEntry) :
    e ∈ listActive uid store ↔ e ∈ store ∧ e.userId = uid ∧ e.status = "ACTIVE" := by
  unfold listActive
  rw [(List.perm_insertionSort _ _).mem_iff, List.mem_filter]
  simp [and_assoc]

theorem delete_ok_removes_id (uid entryId : String) (store : List StoredEntry)
    (hnodup : (store.map StoredEntry.id).Nodup)
    (hok : (deleteHandler (some uid) entryId store).1 = DeleteResponse.ok) :
    ∀ e ∈ (deleteHandler (some uid) entryId store).2,
      e.id = entryId → e.status = "DISCARDED" := by
  by_cases hvalid : isValidObjectId entryId = true
  · have hsome : (findOneAndUpdateDiscard uid entryId store).1.isSome = true := by
      by_contra hno
      rw [deleteHandler_fst uid entryId store hvalid, if_neg hno] at hok
      exact absurd hok (by simp)
    rcases (fd_fst_isSome_iff uid entryId store).mp hsome with ⟨e0, he0, hm0⟩
    intro e he hid
    rw [deleteHandler_snd uid entryId store hvalid, fd_snd_map uid entryId store hnodup] at he
    rcases List.mem_map.mp he with ⟨x, hx, rfl⟩
    by_cases hmx : updMatch uid entryId x
    · rw [if_pos hmx]
      rfl
    · rw [if_neg hmx] at hid ⊢
      have hxe : x = e0 := List.inj_on_of_nodup_map hnodup hx he0 (by rw [hid, hm0.1])
      exact absurd (hxe ▸ hm0) hmx
  · have hvf : isValidObjectId entryId = false := by
      revert hvalid
      cases isValidObjectId entryId <;> simp
    have : deleteHandler (some uid) entryId store = (DeleteResponse.invalidId, store) := by
      simp [deleteHandler, hvf]
    rw [this] at hok
    exact absurd hok (by simp)

/-- Claim C2: `GET /api/pantry` returns exactly the caller's entries whose
status is ACTIVE: never a DISCARDED entry (in particular not one just
soft-deleted, whose id no longer appears), and never an entry owned by a
different user. -/
theorem listActive_only_owned_active_c2 (uid entryId : String) (store : List StoredEntry)
    (e : StoredEntry) (hnodup : (store.map StoredEntry.id).Nodup) :
    getHandler (some uid) store = GetResponse.ok (listActive uid store)
    ∧ (e ∈ listActive uid store ↔ e ∈ store ∧ e.userId = uid ∧ e.status = "ACTIVE")
    ∧ (e ∈ listActive uid store → e.status ≠ "DISCARDED")
    ∧ (e ∈ listActive uid store → e.userId = uid)
    ∧ ((deleteHandler (some uid) entryId store).1 = DeleteResponse.ok →
        e ∈ listActive uid (deleteHandler (some uid) entryId store).2 → e.id ≠ entryId) := by
  refine ⟨rfl, mem_listActive uid store e, ?_, ?_, ?_⟩
  · intro he
    have hst := ((mem_listActive uid store e).mp he).2.2
    rw [hst]
    decide
  · intro he
    exact ((mem_listActive uid store e).mp he).2.1
  · intro hok he hid
    have hmem := (mem_listActive uid _ e).mp he
    have := delete_ok_removes_id uid entryId store hnodup hok e hmem.1 hid
    rw [hmem.2.2] at this
    exact absurd this (by decide)

/-- A second valid ObjectId, distinct from `oidA`. -/
def oidB : String := "bbbbbbbbbbbbbbbbbbbbbbbb"

/-- `entryOther` under the distinct id `oidB`. -/
def entryOtherB : StoredEntry := { entryOther with id := oidB }

theorem listActive_only_owned_active_c2_witness :
    entryActive ∈ listActive "u" [entryActive, entryOtherB] :=
  (listActive_only_owned_active_c2 "u" oidA [entryActive, entryOtherB] entryActive
    (by decide)).2.1.mpr (by decide)

/-! ## Claims about POST /api/pantry -/

/-- The trimmed name is present and non-empty. -/
def namePresent (body : Option RawBody) : Prop :=
  ∃ n, (body.bind RawBody.name).map jsTrim = some n ∧ n.isEmpty = false

/-- The quantity coerces to a finite number whose value is strictly
positive. -/
def quantityValid (body : Option RawBody) : Prop :=
  ∃ d : JsDec, jsNumber (body.bind RawBody.quantity) = JsNum.fin d ∧ 0 < d.toRat

/-- The unit is supplied and belongs to the unit enumeration. -/
def unitValid (body : Option RawBody) : Prop :=
  ∃ u, body.bind RawBody.unit = some u ∧ u ∈ PANTRY_UNITS

/-- A date-label type is supplied and non-empty. -/
def dltSupplied (body : Option RawBody) : Prop :=
  ∃ s, body.bind RawBody.dateLabelType = some s ∧ s.isEmpty = false

/-- The supplied date-label type belongs to its enumeration. -/
def dltValid (body : Option RawBody) : Prop :=
  ∃ s, body.bind RawBody.dateLabelType = some s ∧ s ∈ DATE_LABEL_TYPES

theorem contains_eq_false_iff (l : List String) (v : String) :
    l.contains v = false ↔ ¬ v ∈ l := by
  rw [← contains_iff_mem l v]
  cases l.contains v <;> simp

theorem dltRejected_iff (body : Option RawBody) :
    dltRejected (body.bind RawBody.dateLabelType) = true
      ↔ dltSupplied body ∧ ¬ dltValid body := by
  unfold dltSupplied dltValid
  rcases ho : body.bind RawBody.dateLabelType with _ | s
  · simp [dltRejected]
  · by_cases he : s.isEmpty
    · simp [dltRejected, he]
    · have he' : s.isEmpty = false := by revert he; cases s.isEmpty <;> simp
      simp only [dltRejected, he', Bool.false_eq_true, if_false, Bool.not_eq_true',
        Option.some.injEq]
      rw [show isDateLabelType s = DATE_LABEL_TYPES.contains s from rfl,
        contains_eq_false_iff]
      constructor
      · intro h
        exact ⟨⟨s, rfl, he'⟩, by rintro ⟨x, rfl, hx⟩; exact h hx⟩
      · rintro ⟨-, h⟩ hmem
        exact h ⟨s, rfl, hmem⟩

theorem postHandler_classify (uid : String) (body : Option RawBody) :
    (postHandler (some uid) body = PostResponse.errNameRequired ↔ ¬ namePresent body)
    ∧ (postHandler (some uid) body = PostResponse.errQuantity
        ↔ namePresent body ∧ ¬ quantityValid body)
    ∧ (postHandler (some uid) body = PostResponse.errInvalidUnit
        ↔ namePresent body ∧ quantityValid body ∧ ¬ unitValid body)
    ∧ (postHandler (some uid) body = PostResponse.errInvalidDateLabelType
        ↔ namePresent body ∧ quantityValid body ∧ unitValid body
          ∧ dltSupplied body ∧ ¬ dltValid body)
    ∧ ((∃ item, postHandler (some uid) body = PostResponse.created item)
        ↔ namePresent body ∧ quantityValid body ∧ unitValid body
          ∧ (dltSupplied body → dltValid body)) := by
  rcases hn : (body.bind RawBody.name).map jsTrim with _ | n
  · have hnp : ¬ namePresent body := by simp [namePresent, hn]
    simp [postHandler, hn, hnp]
  · by_cases hne : n.isEmpty
    · have hnp : ¬ namePresent body := by simp [namePresent, hn, hne]
      simp [postHandler, hn, hne, hnp]
    · have hne' : n.isEmpty = false := by revert hne; cases n.isEmpty <;> simp
      have hnp : namePresent body := ⟨n, hn, hne'⟩
      rcases hq : jsNumber (body.bind RawBody.quantity) with _ | _ | _ | d
      · have hqv : ¬ quantityValid body := by simp [quantityValid, hq]
        simp [postHandler, hn, hne', hq, hnp, hqv]
      · have hqv : ¬ quantityValid body := by simp [quantityValid, hq]
        simp [postHandler, hn, hne', hq, hnp, hqv]
      · have hqv : ¬ quantityValid body := by simp [quantityValid, hq]
        simp [postHandler, hn, hne', hq, hnp, hqv]
      · by_cases hd : d.num ≤ 0
        · have hqv : ¬ quantityValid body := by
            simp only [quantityValid, hq, JsNum.fin.injEq]
            rintro ⟨d', rfl, hpos⟩
            rw [JsDec.toRat_pos] at hpos
            omega
          simp [postHandler, hn, hne', hq, hd, hnp, hqv]
        · have hqv : quantityValid body :=
            ⟨d, hq, (JsDec.toRat_pos d).mpr (by omega)⟩
          rcases hu : body.bind RawBody.unit with _ | u
          · have huv : ¬ unitValid body := by simp [unitValid, hu]
            simp [postHandler, hn, hne', hq, hd, hu, hnp, hqv, huv]
          · by_cases hiu : isPantryUnit u = true
            · have huv : unitValid body := ⟨u, hu, (contains_iff_mem _ _).mp hiu⟩
              by_cases hrj : dltRejected (body.bind RawBody.dateLabelType) = true
              · have hsup := (dltRejected_iff body).mp hrj
                simp [postHandler, hn, hne', hq, hd, hu, hiu, hrj, hnp, hqv, huv,
                  hsup.1, hsup.2]
              · have hrj' : dltRejected (body.bind RawBody.dateLabelType) = false := by
                  revert hrj; cases dltRejected (body.bind RawBody.dateLabelType) <;> simp
                have himp : dltSupplied body → dltValid body := by
                  intro hs
                  by_contra hv
                  exact hrj ((dltRejected_iff body).mpr ⟨hs, hv⟩)
                simp [postHandler, hn, hne', hq, hd, hu, hiu, hrj', hnp, hqv, huv]
                exact himp
            · have hiu' : isPantryUnit u = false := by
                revert hiu; cases isPantryUnit u <;> simp
              have huv : ¬ unitValid body := by
                simp only [unitValid, hu, Option.some.injEq]
                rintro ⟨u', rfl, hmem⟩
                exact absurd hmem ((contains_eq_false_iff PANTRY_UNITS u).mp hiu')
              simp [postHandler, hn, hne', hq, hd, hu, hiu', hnp, hqv, huv]

/-- A creation body with the given quantity and otherwise valid fields
(name `"Milk"`, unit `"g"`, no optional fields). -/
def qBody (q : JsPrim) : RawBody :=
  { name := some "Milk", quantity := some q, unit := some "g",
    purchaseDate := none, dateLabelType := none, dateOnPackage := none }

/-- Claim C3: `POST /api/pantry` fails with the field-specific 400 exactly
when the trimmed name is empty, the quantity does not coerce to a finite
number strictly greater than 0, the unit is outside the unit enumeration,
or a supplied non-empty dateLabelType is outside its enumeration (absent
or empty is accepted and omitted); in particular quantity `0`, `-3` and
`"abc"` fail with the quantity error while quantity `2.5` with unit `"g"`
succeeds. -/
theorem submitNewEntry_validation_c3 (uid : String) (body : Option RawBody) :
    (postHandler (some uid) body = PostResponse.errNameRequired ↔ ¬ namePresent body)
    ∧ (postHandler (some uid) body = PostResponse.errQuantity
        ↔ namePresent body ∧ ¬ quantityValid body)
    ∧ (postHandler (some uid) body = PostResponse.errInvalidUnit
        ↔ namePresent body ∧ quantityValid body ∧ ¬ unitValid body)
    ∧ (postHandler (some uid) body = PostResponse.errInvalidDateLabelType
        ↔ namePresent body ∧ quantityValid body ∧ unitValid body
          ∧ dltSupplied body ∧ ¬ dltValid body)
    ∧ ((∃ item, postHandler (some uid) body = PostResponse.created item)
        ↔ namePresent body ∧ quantityValid body ∧ unitValid body
          ∧ (dltSupplied body → dltValid body))
    ∧ postHandler (some uid) (some (qBody (JsPrim.num ⟨0, 0⟩))) = PostResponse.errQuantity
    ∧ postHandler (some uid) (some (qBody (JsPrim.num ⟨-3, 0⟩))) = PostResponse.errQuantity
    ∧ postHandler (some uid) (some (qBody (JsPrim.str "abc"))) = PostResponse.errQuantity
    ∧ postHandler (some uid) (some (qBody (JsPrim.num ⟨25, 1⟩)))
        = PostResponse.created
            { userId := uid, name := "Milk", quantity := ⟨25, 1⟩, unit := "g",
              purchaseDate := none, dateLabelType := none, dateOnPackage := none,
              status := "ACTIVE" }
    ∧ (⟨25, 1⟩ : JsDec).toRat = 5 / 2 := by
  rcases postHandler_classify uid body with ⟨h₁, h₂, h₃, h₄, h₅⟩
  exact ⟨h₁, h₂, h₃, h₄, h₅, rfl, rfl, rfl, rfl, by norm_num [JsDec.toRat]⟩

/-- A body with its two optional date fields replaced. -/
def setDates (body : RawBody) (p d : Option String) : RawBody :=
  { body with purchaseDate := p, dateOnPackage := d }

/-- Whether a response is a 201 creation. -/
def isCreated : PostResponse → Bool
  | .created _ => true
  | _ => false

theorem isCreated_iff (r : PostResponse) :
    isCreated r = true ↔ ∃ item, r = PostResponse.created item := by
  cases r <;> simp [isCreated]

theorem postHandler_created_fields (uid : String) (body : RawBody) (item : CreatedEntry)
    (h : postHandler (some uid) (some body) = PostResponse.created item) :
    item.userId = uid
    ∧ item.status = "ACTIVE"
    ∧ item.purchaseDate = toDateOrNull body.purchaseDate
    ∧ item.dateOnPackage = toDateOrNull body.dateOnPackage
    ∧ item.dateLabelType = dltApplied body.dateLabelType := by
  rcases hn : ((some body).bind RawBody.name).map jsTrim with _ | n
  · simp only [postHandler, hn] at h
    exact absurd h (by simp)
  · simp only [postHandler, hn] at h
    by_cases hne : n.isEmpty
    · simp [hne] at h
    · rw [if_neg hne] at h
      rcases hq : jsNumber ((some body).bind RawBody.quantity) with _ | _ | _ | d
      · simp only [hq] at h
        exact absurd h (by simp)
      · simp only [hq] at h
        exact absurd h (by simp)
      · simp only [hq] at h
        exact absurd h (by simp)
      · simp only [hq] at h
        by_cases hd : d.num ≤ 0
        · rw [if_pos hd] at h
          exact absurd h (by simp)
        · rw [if_neg hd] at h
          rcases hu : (some body).bind RawBody.unit with _ | u
          · simp only [hu] at h
            exact absurd h (by simp)
          · simp only [hu] at h
            by_cases hiu : isPantryUnit u = true
            · rw [if_pos hiu] at h
              by_cases hrj : dltRejected ((some body).bind RawBody.dateLabelType) = true
              · rw [if_pos hrj] at h
                exact absurd h (by simp)
              · rw [if_neg hrj] at h
                injection h with h
                subst h
                exact ⟨rfl, rfl, rfl, rfl, rfl⟩
            · rw [if_neg hiu] at h
              exact absurd h (by simp)

/-- Claim C5: each optional date-like input that is falsy/empty or fails
to parse is normalized to absent and never makes the request fail: the
success/failure of `POST /api/pantry` does not depend on the date fields,
the created entry stores exactly the normalized dates, and the concrete
request with `dateOnPackage: "not-a-date"` succeeds with that field
absent. -/
theorem date_leniency_c5 (uid : String) (body : RawBody) (p₁ d₁ p₂ d₂ : Option String)
    (s : String) (item : CreatedEntry) :
    (jsDateParse s = none → toDateOrNull (some s) = none)
    ∧ toDateOrNull none = none
    ∧ toDateOrNull (some "") = none
    ∧ isCreated (postHandler (some uid) (some (setDates body p₁ d₁)))
        = isCreated (postHandler (some uid) (some (setDates body p₂ d₂)))
    ∧ (postHandler (some uid) (some body) = PostResponse.created item →
        item.purchaseDate = toDateOrNull body.purchaseDate
        ∧ item.dateOnPackage = toDateOrNull body.dateOnPackage)
    ∧ postHandler (some uid)
        (some (setDates (qBody (JsPrim.num ⟨1, 0⟩)) none (some "not-a-date")))
        = PostResponse.created
            { userId := uid, name := "Milk", quantity := ⟨1, 0⟩, unit := "g",
              purchaseDate := none, dateLabelType := none, dateOnPackage := none,
              status := "ACTIVE" } := by
  refine ⟨?_, rfl, rfl, ?_, ?_, rfl⟩
  · intro h
    simp [toDateOrNull, h]
  · have h₁ := (postHandler_classify uid (some (setDates body p₁ d₁))).2.2.2.2
    have h₂ := (postHandler_classify uid (some (setDates body p₂ d₂))).2.2.2.2
    rw [Bool.eq_iff_iff, isCreated_iff, isCreated_iff, h₁, h₂]
    exact Iff.rfl
  · intro h
    have hf := postHandler_created_fields uid body item h
    exact ⟨hf.2.2.1, hf.2.2.2.1⟩

/-! ## Claims about the Entry Store schema -/

/-- A store-creation document with quantity `0` and otherwise valid
fields: it violates the Data Model invariant `quantity > 0`. -/
def zeroQuantityDoc : CreatedEntry :=
  { userId := "u", name := "Milk", quantity := ⟨0, 0⟩, unit := "g",
    purchaseDate := none, dateLabelType := none, dateOnPackage := none,
    status := "ACTIVE" }

/-- Counterexample to Claim C4 as stated: the schema's `min: 0` accepts a
document whose quantity is `0`, although `0` violates the invariant
`quantity > 0`; the store therefore does not re-enforce `quantity > 0`. -/
theorem schemaValidate_c4_cex :
    schemaValidate zeroQuantityDoc = true
    ∧ ¬ (0 < zeroQuantityDoc.quantity.toRat) := by
  constructor
  · decide
  · rw [JsDec.toRat_pos]
    decide

/-- Claim C4 (amended): the store's schema re-enforces, independently of
the Entry Service, that the name is non-empty once trimmed, `quantity ≥ 0`
(the schema's `min: 0`, not the invariant's `quantity > 0`), and that
`unit`, `status` and a supplied `dateLabelType` are members of their
enumerations; creation fails with ValidationError exactly when one of
these is violated. -/
theorem schemaValidate_characterization_c4 (f : CreatedEntry) :
    schemaValidate f = true ↔
      ((jsTrim f.name).isEmpty = false ∧ 0 ≤ f.quantity.toRat ∧ f.unit ∈ PANTRY_UNITS
        ∧ f.status ∈ PANTRY_STATUSES
        ∧ ∀ s, f.dateLabelType = some s → s ∈ DATE_LABEL_TYPES) := by
  unfold schemaValidate
  rw [JsDec.toRat_nonneg]
  simp only [Bool.and_eq_true, Bool.not_eq_true', decide_eq_true_eq,
    show isPantryUnit f.unit = PANTRY_UNITS.contains f.unit from rfl,
    show isPantryStatus f.status = PANTRY_STATUSES.contains f.status from rfl,
    contains_iff_mem, and_assoc]
  rcases hd : f.dateLabelType with _ | s
  · simp
  · simp only [Option.some.injEq]
    constructor
    · rintro ⟨h1, h2, h3, h4, h5⟩
      exact ⟨h1, h2, h3, h4, by rintro x rfl; exact (contains_iff_mem _ _).mp h5⟩
    · rintro ⟨h1, h2, h3, h4, h5⟩
      exact ⟨h1, h2, h3, h4, (contains_iff_mem _ _).mpr (h5 s rfl)⟩

/-! ## Claims about presentation ordering -/

theorem lexCmp_swap (as bs : List Char) : lexCmp bs as = - lexCmp as bs := by
  induction as generalizing bs with
  | nil => cases bs <;> simp [lexCmp]
  | cons a as ih =>
    cases bs with
    | nil => simp [lexCmp]
    | cons b bs =>
      simp only [lexCmp]
      rcases lt_trichotomy a b with h | h | h
      · simp [h, asymm h]
      · subst h
        simp [lt_irrefl, ih bs]
      · simp [h, asymm h]

theorem lexCmp_trans_nonpos (as bs cs : List Char)
    (h₁ : lexCmp as bs ≤ 0) (h₂ : lexCmp bs cs ≤ 0) : lexCmp as cs ≤ 0 := by
  induction as generalizing bs cs with
  | nil => cases cs <;> simp [lexCmp]
  | cons a as ih =>
    cases bs with
    | nil => simp [lexCmp] at h₁
    | cons b bs =>
      cases cs with
      | nil => simp [lexCmp] at h₂
      | cons c cs =>
        simp only [lexCmp] at h₁ h₂ ⊢
        rcases lt_trichotomy a b with hab | hab | hab
        · rcases lt_trichotomy b c with hbc | hbc | hbc
          · have hac : a < c := lt_trans hab hbc
            simp [hac, asymm hac]
          · subst hbc
            simp [hab, asymm hab]
          · simp [hbc, asymm hbc] at h₂
        · subst hab
          simp only [lt_irrefl, if_false] at h₁
          rcases lt_trichotomy a c with hac | hac | hac
          · simp [hac, asymm hac]
          · subst hac
            simp only [lt_irrefl, if_false] at h₂ ⊢
            exact ih bs cs h₁ h₂
          · simp [hac, asymm hac] at h₂
        · simp [hab, asymm hab] at h₁

theorem lexCmp_total_nonpos (as bs : List Char) :
    lexCmp as bs ≤ 0 ∨ lexCmp bs as ≤ 0 := by
  rw [lexCmp_swap]
  omega

theorem sorted_jsSort (cmp : PantryItem → PantryItem → Int)
    (htrans : ∀ a b c, cmp a b ≤ 0 → cmp b c ≤ 0 → cmp a c ≤ 0)
    (htotal : ∀ a b, cmp a b ≤ 0 ∨ cmp b a ≤ 0) (l : List PantryItem) :
    List.Sorted (jsSortRel cmp) (jsSort cmp l) := by
  letI : IsTrans PantryItem (jsSortRel cmp) := ⟨htrans⟩
  letI : IsTotal PantryItem (jsSortRel cmp) := ⟨htotal⟩
  exact List.sorted_insertionSort _ l

theorem jsSort_perm (cmp : PantryItem → PantryItem → Int) (l : List PantryItem) :
    (jsSort cmp l).Perm l :=
  List.perm_insertionSort _ l

/-- Claim C6: for every item list and every sort option, the presentation
layer partitions the list into the "dated" group (present `dateOnPackage`)
and the "undated" group (all others): the partition is the same for every
sort option, every input item lands in exactly one group, and no item is
in both. -/
theorem presentation_partition_c6 (items : List PantryItem) (o o' : String)
    (i : PantryItem) :
    (i ∈ (pantryGroups items o).1 ↔ i ∈ items ∧ hasPackageDate i = true)
    ∧ (i ∈ (pantryGroups items o).2 ↔ i ∈ items ∧ hasPackageDate i = false)
    ∧ ¬ (i ∈ (pantryGroups items o).1 ∧ i ∈ (pantryGroups items o).2)
    ∧ (pantryGroups items o).1.Perm ((pantryGroups items o').1)
    ∧ (pantryGroups items o).2.Perm ((pantryGroups items o').2)
    ∧ ((pantryGroups items o).1 ++ (pantryGroups items o).2).Perm items := by
  have m₁ : i ∈ (pantryGroups items o).1 ↔ i ∈ items ∧ hasPackageDate i = true := by
    unfold pantryGroups
    rw [(jsSort_perm _ _).mem_iff, List.mem_filter]
  have m₂ : i ∈ (pantryGroups items o).2 ↔ i ∈ items ∧ hasPackageDate i = false := by
    unfold pantryGroups
    rw [(jsSort_perm _ _).mem_iff, List.mem_filter, Bool.not_eq_true']
  refine ⟨m₁, m₂, ?_, ?_, ?_, ?_⟩
  · rintro ⟨h₁, h₂⟩
    rw [(m₁.mp h₁).2] at m₂
    exact absurd (m₂.mp h₂).2 (by simp)
  · exact (jsSort_perm _ _).trans (jsSort_perm _ _).symm
  · exact (jsSort_perm _ _).trans (jsSort_perm _ _).symm
  · exact ((jsSort_perm _ _).append (jsSort_perm _ _)).trans
      (List.filter_append_perm hasPackageDate items)

theorem sorted_jsSort_pkgDesc (l : List PantryItem) :
    List.Sorted (fun a b : PantryItem => jsTime b.dateOnPackage ≤ jsTime a.dateOnPackage)
      (jsSort cmpPkgDesc l) := by
  have h := sorted_jsSort cmpPkgDesc
    (by intro a b c h₁ h₂; unfold cmpPkgDesc at *; omega)
    (by intro a b; unfold cmpPkgDesc; omega) l
  exact List.Pairwise.imp
    (fun hab => by simpa [jsSortRel, cmpPkgDesc, sub_nonpos] using hab) h

theorem sorted_jsSort_pkgAsc (l : List PantryItem) :
    List.Sorted (fun a b : PantryItem => jsTime a.dateOnPackage ≤ jsTime b.dateOnPackage)
      (jsSort cmpPkgAsc l) := by
  have h := sorted_jsSort cmpPkgAsc
    (by intro a b c h₁ h₂; unfold cmpPkgAsc at *; omega)
    (by intro a b; unfold cmpPkgAsc; omega) l
  exact List.Pairwise.imp
    (fun hab => by simpa [jsSortRel, cmpPkgAsc, sub_nonpos] using hab) h

theorem sorted_jsSort_createdDesc (l : List PantryItem) :
    List.Sorted (fun a b : PantryItem => jsTime b.createdAt ≤ jsTime a.createdAt)
      (jsSort cmpCreatedDesc l) := by
  have h := sorted_jsSort cmpCreatedDesc
    (by intro a b c h₁ h₂; unfold cmpCreatedDesc at *; omega)
    (by intro a b; unfold cmpCreatedDesc; omega) l
  exact List.Pairwise.imp
    (fun hab => by simpa [jsSortRel, cmpCreatedDesc, sub_nonpos] using hab) h

theorem sorted_jsSort_createdAsc (l : List PantryItem) :
    List.Sorted (fun a b : PantryItem => jsTime a.createdAt ≤ jsTime b.createdAt)
      (jsSort cmpCreatedAsc l) := by
  have h := sorted_jsSort cmpCreatedAsc
    (by intro a b c h₁ h₂; unfold cmpCreatedAsc at *; omega)
    (by intro a b; unfold cmpCreatedAsc; omega) l
  exact List.Pairwise.imp
    (fun hab => by simpa [jsSortRel, cmpCreatedAsc, sub_nonpos] using hab) h

theorem sorted_jsSort_nameAZ (l : List PantryItem) :
    List.Sorted (fun a b : PantryItem => localeCompareBase a.name b.name ≤ 0)
      (jsSort cmpNameAZ l) :=
  sorted_jsSort cmpNameAZ
    (fun a b c h₁ h₂ => lexCmp_trans_nonpos _ _ _ h₁ h₂)
    (fun a b => lexCmp_total_nonpos _ _) l

theorem sorted_jsSort_nameZA (l : List PantryItem) :
    List.Sorted (fun a b : PantryItem => localeCompareBase b.name a.name ≤ 0)
      (jsSort cmpNameZA l) :=
  sorted_jsSort cmpNameZA
    (fun a b c h₁ h₂ => lexCmp_trans_nonpos _ _ _ h₂ h₁)
    (fun a b => (lexCmp_total_nonpos _ _).symm) l

/-- Item A of the spec's example: `dateOnPackage` day 10. -/
def itemA : PantryItem :=
  { id := "a", name := "A", quantity := ⟨1, 0⟩, unit := "count", dateLabelType := none,
    dateOnPackage := some 10, createdAt := some 1 }

/-- Item B of the spec's example: `dateOnPackage` day 5. -/
def itemB : PantryItem :=
  { id := "b", name := "B", quantity := ⟨1, 0⟩, unit := "count", dateLabelType := none,
    dateOnPackage := some 5, createdAt := some 2 }

/-- A dated item named `"Banana"`. -/
def itemBanana : PantryItem :=
  { id := "c", name := "Banana", quantity := ⟨1, 0⟩, unit := "count", dateLabelType := none,
    dateOnPackage := some 1, createdAt := some 1 }

/-- A dated item named `"apple"`. -/
def itemApple : PantryItem :=
  { id := "d", name := "apple", quantity := ⟨1, 0⟩, unit := "count", dateLabelType := none,
    dateOnPackage := some 1, createdAt := some 2 }

/-- Claim C7: the dated group is sorted by the selected option —
`packageDateNewest`/`packageDateOldest` by descending/ascending
`dateOnPackage` (on A = day 10 and B = day 5, `packageDateOldest` gives
`[B, A]` and `packageDateNewest` gives `[A, B]`),
`addedDateNewest`/`addedDateOldest` by descending/ascending `createdAt`,
and `nameAZ`/`nameZA` case-insensitively by name (`nameAZ` on
`["Banana", "apple"]` gives `["apple", "Banana"]`). -/
theorem dated_group_sort_c7 (items : List PantryItem) :
    List.Sorted (fun a b : PantryItem => jsTime b.dateOnPackage ≤ jsTime a.dateOnPackage)
      ((pantryGroups items "packageDateNewest").1)
    ∧ List.Sorted (fun a b : PantryItem => jsTime a.dateOnPackage ≤ jsTime b.dateOnPackage)
      ((pantryGroups items "packageDateOldest").1)
    ∧ List.Sorted (fun a b : PantryItem => jsTime b.createdAt ≤ jsTime a.createdAt)
      ((pantryGroups items "addedDateNewest").1)
    ∧ List.Sorted (fun a b : PantryItem => jsTime a.createdAt ≤ jsTime b.createdAt)
      ((pantryGroups items "addedDateOldest").1)
    ∧ List.Sorted (fun a b : PantryItem => localeCompareBase a.name b.name ≤ 0)
      ((pantryGroups items "nameAZ").1)
    ∧ List.Sorted (fun a b : PantryItem => localeCompareBase b.name a.name ≤ 0)
      ((pantryGroups items "nameZA").1)
    ∧ (pantryGroups [itemA, itemB] "packageDateOldest").1 = [itemB, itemA]
    ∧ (pantryGroups [itemA, itemB] "packageDateNewest").1 = [itemA, itemB]
    ∧ (pantryGroups [itemBanana, itemApple] "nameAZ").1 = [itemApple, itemBanana]
    ∧ (pantryGroups [itemBanana, itemApple] "nameZA").1 = [itemBanana, itemApple] :=
  ⟨sorted_jsSort_pkgDesc (items.filter hasPackageDate),
   sorted_jsSort_pkgAsc (items.filter hasPackageDate),
   sorted_jsSort_createdDesc (items.filter hasPackageDate),
   sorted_jsSort_createdAsc (items.filter hasPackageDate),
   sorted_jsSort_nameAZ (items.filter hasPackageDate),
   sorted_jsSort_nameZA (items.filter hasPackageDate),
   by decide, by decide, by decide, by decide⟩

/-- Claim C8: the undated group uses the same rule set as the dated group
except that `packageDateNewest`/`packageDateOldest` fall back to
`createdAt` descending/ascending; and any sort option outside the
enumeration falls back, for both groups, to the `addedDateNewest`
behavior (`createdAt` descending). -/
theorem undated_group_fallback_c8 (items : List PantryItem) (o : String)
    (hna : o ∉ PANTRY_SORT_OPTIONS) :
    List.Sorted (fun a b : PantryItem => jsTime b.createdAt ≤ jsTime a.createdAt)
      ((pantryGroups items "packageDateNewest").2)
    ∧ List.Sorted (fun a b : PantryItem => jsTime a.createdAt ≤ jsTime b.createdAt)
      ((pantryGroups items "packageDateOldest").2)
    ∧ (∀ a b, sortBasedOnOption "packageDateNewest" false a b
        = sortBasedOnOption "addedDateNewest" false a b)
    ∧ (∀ a b, sortBasedOnOption "packageDateOldest" false a b
        = sortBasedOnOption "addedDateOldest" false a b)
    ∧ (∀ o' ∈ ["addedDateNewest", "addedDateOldest", "nameAZ", "nameZA"],
        ∀ a b, sortBasedOnOption o' false a b = sortBasedOnOption o' true a b)
    ∧ (∀ hasDate a b, sortBasedOnOption o hasDate a b
        = sortBasedOnOption "addedDateNewest" hasDate a b)
    ∧ pantryGroups items o = pantryGroups items "addedDateNewest" := by
  simp only [PANTRY_SORT_OPTIONS, List.mem_cons, List.not_mem_nil, or_false,
    not_or] at hna
  have hcmp : ∀ hasDate : Bool, sortBasedOnOption o hasDate = cmpCreatedDesc := by
    intro hasDate
    unfold sortBasedOnOption
    rw [if_neg hna.1, if_neg hna.2.1, if_neg hna.2.2.1, if_neg hna.2.2.2.1,
      if_neg hna.2.2.2.2.1, if_neg hna.2.2.2.2.2]
  refine ⟨sorted_jsSort_createdDesc (items.filter fun i => ! hasPackageDate i),
    sorted_jsSort_createdAsc (items.filter fun i => ! hasPackageDate i),
    fun a b => rfl, fun a b => rfl, ?_, ?_, ?_⟩
  · intro o' ho' a b
    simp only [List.mem_cons, List.not_mem_nil, or_false] at ho'
    rcases ho' with rfl | rfl | rfl | rfl <;> rfl
  · intro hasDate a b
    rw [hcmp hasDate]
    cases hasDate <;> rfl
  · unfold pantryGroups
    rw [hcmp true, hcmp false]
    rfl

theorem undated_group_fallback_c8_witness :
    pantryGroups [itemA] "bogus" = pantryGroups [itemA] "addedDateNewest" :=
  (undated_group_fallback_c8 [itemA] "bogus" (by decide)).2.2.2.2.2.2
